import Mathlib

/-!
Verification of `flask-auth` (`src/flask_auth.py` plus the `errors` package)
against its natural-language specification.

The model is a shallow embedding of `AuthenticationManager` and its store.
The two SQL tables become Lean lists of rows; every statement the Python
functions execute against the cursor is mirrored by a pure list operation
in the same order.  Effects that the Python runtime supplies implicitly are
made explicit parameters:

* the current clock reading (`datetime.datetime.now()` / `time.time()`) is
  passed in as a number of microseconds (resp. whole seconds) at each call;
* the random draws (`uuid4()` for ids and tokens, the 64-character
  `secrets.choice` salt) are passed in as the string the generator produced;
* the SHA-256 digest is an abstract field `hashFn` of the manager: all
  theorems are universally quantified over it, since the claims only use
  that `_sha256hash(data, salt)` is a function of `(data, salt)`;
* `flask.request.cookies.get("auth")` becomes an `Option String` argument
  (flask cookie values are always `str`, so the `isinstance` test in the
  source is exactly an is-present test).

Exceptions become an explicit error sum `AuthErr`; a Python function that
may raise returns `DBState × Except AuthErr α`, where the first component
is the state of the store when the call returns or the exception escapes
(psycopg2 executes each statement as it is issued, so statements run
before a raise remain visible on the connection).
-/

/-- A row of the `users` table:
`id text, username text, hash char(64), salt char(64), groups text[]`. -/
structure UserRow where
  id : String
  username : String
  hash : String
  salt : String
  groups : List String
  deriving Repr, DecidableEq

/-- A row of the `sessions` table: `id text, token text, expiry int`.
`expiry` is an absolute Unix timestamp in whole seconds. -/
structure SessionRow where
  id : String
  token : String
  expiry : Nat
  deriving Repr, DecidableEq

/-- The mutable store owned by the manager: both tables, in insertion
order.  `SELECT ... fetchone()` is `List.find?`, `INSERT` appends,
`DELETE ... WHERE` filters, `UPDATE ... WHERE` maps over the rows. -/
structure DBState where
  users : List UserRow
  sessions : List SessionRow
  deriving Repr, DecidableEq

/-- The distinct raised conditions of the library.  The first three are the
exception classes of the `errors` package; `keyError`, `typeError` and
`nameError` are the unhandled Python runtime errors the code can hit
(`self.config["expiry"]` on a mapping without the key, subscripting or
destructuring a `fetchone()` that returned `None`, and reading the
undefined variable `expire_date` in `create_session`). -/
inductive AuthErr where
  | userAlreadyExists
  | authenticationFailure
  | passwordValidationError
  | keyError
  | typeError
  | nameError
  deriving Repr, DecidableEq

/-- A cookie as `flask.Response.set_cookie` would record it: name, value,
absolute expiration (Unix seconds), and the `secure` / `httponly` flags. -/
structure Cookie where
  name : String
  value : String
  expires : Nat
  secure : Bool
  httponly : Bool
  deriving Repr, DecidableEq

/-- The part of a `flask.Response` the library touches: its cookie list. -/
structure Response where
  cookies : List Cookie
  deriving Repr, DecidableEq

/-- `response.set_cookie(name, value, expires, secure, httponly)`. -/
def Response.set_cookie (r : Response) (name value : String) (expires : Nat)
    (secure httponly : Bool) : Response :=
  { r with cookies := r.cookies ++ [⟨name, value, expires, secure, httponly⟩] }

/-- Python dict lookup `cfg[k]` on the configuration mapping, as an
association-list lookup (a `dict` has at most one binding per key). -/
def dictGet (cfg : List (String × Nat)) (k : String) : Option Nat :=
  match cfg with
  | [] => none
  | (k', v) :: rest => if k' = k then some v else dictGet rest k

/-- The `AuthenticationManager`: its abstract SHA-256 digest (a fixed
function of data and salt, hex string) and the optional configuration
mapping supplied at construction (durations in microseconds, matching
`datetime.timedelta` resolution). -/
structure AuthenticationManager where
  hashFn : String → String → String
  config : Option (List (String × Nat))

/-- `datetime.timedelta(days=30)` in microseconds: the default session
lifetime. -/
def defaultExpiry_us : Nat := 30 * 24 * 60 * 60 * 1000000

namespace AuthenticationManager

/-- `_sha256hash(self, data, salt)`: digest over the UTF-8 bytes of `data`
followed by those of `salt`, hex-encoded.  Abstract in the model. -/
def sha256hash (m : AuthenticationManager) (data salt : String) : String :=
  m.hashFn data salt

/-- `create_session_token(self, uid, expiry=timedelta(days=30))`.
Draws a token (`str(uuid4())`, the `token` argument here), computes
`expire_date = datetime.datetime.now() + expiry` and inserts
`(uid, token, int(expire_date.timestamp()))`; `int(...)` truncates the
positive timestamp to whole seconds, i.e. floor-divides microseconds
by 10^6.  Returns the token. -/
def create_session_token (s : DBState) (uid token : String)
    (now_us expiry_us : Nat) : DBState × String :=
  let expire_ts : Nat := (now_us + expiry_us) / 1000000
  ({ s with sessions := s.sessions ++ [⟨uid, token, expire_ts⟩] }, token)

/-- `create_session(self, uid, response, expiry=timedelta(days=30))`.
Calls `create_session_token`, then evaluates
`response.set_cookie("auth", token, expires=expire_date, secure=True,
httponly=True)`.  `expire_date` is a local variable of
`create_session_token`, not of `create_session`, and no global of that
name exists, so evaluating the `expires=` argument raises `NameError`
before `set_cookie` runs: the session row is already inserted, no cookie
is attached, and the exception escapes. -/
def create_session (s : DBState) (uid : String) (_response : Response)
    (token : String) (now_us expiry_us : Nat) :
    DBState × Except AuthErr Response :=
  let (s1, _tok) := create_session_token s uid token now_us expiry_us
  (s1, .error .nameError)

/-- `register(self, username, password, groups)`.  The salt
(64 `secrets.choice` characters) and the fresh id (`str(uuid4())`) are the
`salt` and `uid` arguments.  Computes the hash, runs the existence query
`SELECT * FROM users WHERE username=%s`, raises `UserAlreadyExists` if it
returns a row, otherwise inserts the new user row. -/
def register (m : AuthenticationManager) (s : DBState)
    (username password : String) (groups : List String) (salt uid : String) :
    DBState × Except AuthErr Unit :=
  let phash := m.hashFn password salt
  match s.users.find? (fun u => u.username == username) with
  | some _ => (s, .error .userAlreadyExists)
  | none =>
      ({ s with users := s.users ++ [⟨uid, username, phash, salt, groups⟩] },
       .ok ())

/-- `login(self, username, password, response)`.  Fetches
`id, username, hash, salt` for the username (`fetchone`, i.e. first
matching row); raises `AuthenticationFailure` when absent or when the
recomputed hash differs from the stored one.  Then
`DELETE FROM sessions WHERE id=%s` for the user's id, and finally
dispatches on the truthiness of `self.config` (`None` and `{}` are falsy):
truthy config indexes `self.config["expiry"]` (a `KeyError` escapes when
the key is missing, after the delete), otherwise the 30-day default is
used.  The `token` argument is the `uuid4` draw of `create_session_token`,
`now_us` the clock reading there. -/
def login (m : AuthenticationManager) (s : DBState)
    (username password : String) (response : Response)
    (token : String) (now_us : Nat) : DBState × Except AuthErr Response :=
  match s.users.find? (fun u => u.username == username) with
  | none => (s, .error .authenticationFailure)
  | some user =>
      let phash := m.hashFn password user.salt
      if phash ≠ user.hash then
        (s, .error .authenticationFailure)
      else
        let s1 : DBState :=
          { s with sessions := s.sessions.filter (fun r => r.id ≠ user.id) }
        match m.config with
        | some cfg =>
            if cfg.isEmpty then
              create_session s1 user.id response token now_us defaultExpiry_us
            else
              match dictGet cfg "expiry" with
              | some d => create_session s1 user.id response token now_us d
              | none => (s1, .error .keyError)
        | none =>
            create_session s1 user.id response token now_us defaultExpiry_us

/-- `get_user(self)`.  `auth` is the request's `auth` cookie
(`None` when absent).  Missing cookie ⇒ `None`; no session row with the
token ⇒ `None`; `session[2] < int(time.time())` ⇒ `None`; otherwise
returns `fetchone()` of `SELECT * FROM users WHERE id=%s` — the user row,
or `None` when no user has the session's id.  Only `SELECT`s are issued,
so the returned state is the input state in every branch. -/
def get_user (s : DBState) (auth : Option String) (now_s : Nat) :
    DBState × Option UserRow :=
  match auth with
  | none => (s, none)
  | some token =>
      match s.sessions.find? (fun r => r.token == token) with
      | none => (s, none)
      | some session =>
          if session.expiry < now_s then (s, none)
          else (s, s.users.find? (fun u => u.id == session.id))

/-- `change_password(self, uid, old_password, new_password)`.  Fetches
`hash, salt` by id; when no row matches, the destructuring
`phash, salt = cur.fetchone()` unpacks `None` and raises `TypeError`.
Validates the old password (`PasswordValidationError` on mismatch), draws
a fresh salt (the `newSalt` argument), hashes the new password, runs
`UPDATE users SET hash=%s, salt=%s WHERE id=%s` (every row with that id)
and `DELETE FROM sessions WHERE id=%s`. -/
def change_password (m : AuthenticationManager) (s : DBState)
    (uid old_password new_password : String) (newSalt : String) :
    DBState × Except AuthErr Unit :=
  match s.users.find? (fun u => u.id == uid) with
  | none => (s, .error .typeError)
  | some user =>
      if m.hashFn old_password user.salt ≠ user.hash then
        (s, .error .passwordValidationError)
      else
        let phash := m.hashFn new_password newSalt
        ({ users := s.users.map (fun u =>
              if u.id = uid then { u with hash := phash, salt := newSalt }
              else u),
           sessions := s.sessions.filter (fun r => r.id ≠ uid) },
         .ok ())

/-- `get_groups(self)`.  Missing `auth` cookie ⇒ `None`.  Then
`uid = cur.fetchone()[0]` on `SELECT id FROM sessions WHERE token=%s`:
when no session row matches, this subscripts `None` and raises
`TypeError` (no expiry check is performed).  Likewise
`groups = cur.fetchone()[0]` on the users query raises `TypeError` when
no user has that id.  Otherwise returns the group list.  Only `SELECT`s
are issued. -/
def get_groups (s : DBState) (auth : Option String) :
    DBState × Except AuthErr (Option (List String)) :=
  match auth with
  | none => (s, .ok none)
  | some token =>
      match s.sessions.find? (fun r => r.token == token) with
      | none => (s, .error .typeError)
      | some session =>
          match s.users.find? (fun u => u.id == session.id) with
          | none => (s, .error .typeError)
          | some user => (s, .ok (some user.groups))

end AuthenticationManager

/-! ## Helper lemmas -/

/-- `find?` skips a prefix in which nothing matches. -/
theorem find?_append_of_none {α : Type} (p : α → Bool) {l₁ : List α}
    (l₂ : List α) (h : l₁.find? p = none) :
    (l₁ ++ l₂).find? p = l₂.find? p := by
  induction l₁ with
  | nil => rfl
  | cons x xs ih =>
      by_cases hx : p x
      · simp [List.find?_cons_of_pos _ hx] at h
      · rw [List.cons_append, List.find?_cons_of_neg _ hx]
        rw [List.find?_cons_of_neg _ hx] at h
        exact ih h

/-- The config dispatch at the end of `login`, read off the source: the
duration `create_session` is reached with, or `none` when the truthy
config lacks the `expiry` key (the `KeyError` path). -/
def AuthenticationManager.effectiveExpiry (m : AuthenticationManager) :
    Option Nat :=
  match m.config with
  | some cfg =>
      if cfg.isEmpty then some defaultExpiry_us else dictGet cfg "expiry"
  | none => some defaultExpiry_us

/-- A `login` whose credential checks pass and whose config dispatch
yields duration `d` deletes the user's session rows, inserts the new one,
and raises `NameError` at the cookie step. -/
theorem login_success_state (m : AuthenticationManager) (s : DBState)
    (username password : String) (resp : Response) (token : String)
    (now_us d : Nat) (user : UserRow)
    (hfind : s.users.find? (fun u => u.username == username) = some user)
    (hhash : m.hashFn password user.salt = user.hash)
    (hd : m.effectiveExpiry = some d) :
    m.login s username password resp token now_us =
      ({ users := s.users,
         sessions := s.sessions.filter (fun r => r.id ≠ user.id) ++
           [⟨user.id, token, (now_us + d) / 1000000⟩] },
       .error .nameError) := by
  unfold AuthenticationManager.login
  rw [hfind]
  simp only [hhash, ne_eq, not_true_eq_false, if_false]
  unfold AuthenticationManager.effectiveExpiry at hd
  cases hc : m.config with
  | none =>
      rw [hc] at hd
      simp only [Option.some.injEq] at hd
      subst hd
      rfl
  | some cfg =>
      rw [hc] at hd
      dsimp only at hd ⊢
      by_cases hemp : cfg.isEmpty
      · rw [if_pos hemp] at hd
        simp only [Option.some.injEq] at hd
        subst hd
        rw [if_pos hemp]
        rfl
      · rw [if_neg hemp] at hd
        rw [if_neg hemp, hd]
        rfl

/-! ## Concrete fixtures for closed theorems and witnesses -/

/-- A concrete stand-in for the abstract digest in closed statements. -/
def hashCat : String → String → String := fun data salt => data ++ "#" ++ salt

/-- A manager constructed without a configuration object. -/
def mgr0 : AuthenticationManager := ⟨hashCat, none⟩

/-- A registered user whose stored hash matches password `pw1`. -/
def alice : UserRow := ⟨"uid-1", "alice", hashCat "pw1" "saltA", "saltA", ["admin"]⟩

/-- A session row for `alice` expiring at Unix second 100. -/
def sessAtBoundary : SessionRow := ⟨"uid-1", "tokB", 100⟩

/-! ## Claims -/

/-- C1 (code_bug): at a registered user with the matching password,
`login` does delete the user's old session rows and insert the new one,
but then `create_session` evaluates the undefined variable `expire_date`
while building the `set_cookie` call, so the call raises `NameError`: no
`auth` cookie is attached and no response is returned, contradicting the
claimed cookie contract. -/
theorem login_cookie_step_raises_nameError :
    mgr0.login ⟨[alice], [⟨"uid-1", "oldtok", 500⟩]⟩ "alice" "pw1" ⟨[]⟩
        "newtok" 1000000 =
      ({ users := [alice],
         sessions := [⟨"uid-1", "newtok", (1000000 + defaultExpiry_us) / 1000000⟩] },
       .error .nameError) := by
  rfl

/-- C2 (counterexample): with a session row whose stored expiry (100)
equals the current time (100), `get_user` returns the user row, not the
absent result: the validity comparison in the source is `expiry < now`,
so the claimed strictly-greater contract fails at the boundary. -/
theorem getUser_boundary_expiry_counterexample :
    (AuthenticationManager.get_user ⟨[alice], [sessAtBoundary]⟩
        (some "tokB") 100).2 = some alice := by
  rfl

/-- C2 (amended): when a session row matches the token, `get_user`
returns the absent result exactly when `expiry < now` (so a stored expiry
equal to the current time still resolves), and otherwise returns the
lookup of the session's user id in the users table. -/
theorem getUser_returns_user_iff_expiry_not_lt (s : DBState) (t : String)
    (now_s : Nat) (session : SessionRow)
    (hfind : s.sessions.find? (fun r => r.token == t) = some session) :
    (AuthenticationManager.get_user s (some t) now_s).2 =
      (if session.expiry < now_s then none
       else s.users.find? (fun u => u.id == session.id)) := by
  unfold AuthenticationManager.get_user
  dsimp only
  rw [hfind]
  by_cases h : session.expiry < now_s <;> simp [h]

/-- Witness for C2's amended theorem at a concrete store and time. -/
theorem getUser_expiry_characterization_witness :
    (AuthenticationManager.get_user ⟨[alice], [sessAtBoundary]⟩
        (some "tokB") 50).2 =
      (if sessAtBoundary.expiry < 50 then none
       else (⟨[alice], [sessAtBoundary]⟩ : DBState).users.find?
         (fun u => u.id == sessAtBoundary.id)) :=
  getUser_returns_user_iff_expiry_not_lt ⟨[alice], [sessAtBoundary]⟩
    "tokB" 50 sessAtBoundary (by rfl)

/-- C5 (code_bug): on a request whose `auth` cookie matches no session
row, `get_groups` subscripts the `None` returned by `fetchone()` and
raises `TypeError` instead of returning the absent result that `get_user`
returns for the same token. -/
theorem getGroups_unmatched_token_typeError :
    AuthenticationManager.get_groups ⟨[alice], [sessAtBoundary]⟩
        (some "deadbeef") =
      (⟨[alice], [sessAtBoundary]⟩, .error .typeError) := by
  rfl

/-- C8: `get_user` issues only `SELECT`s: in every branch the store after
the call equals the store before it (expired rows are left in place). -/
theorem getUser_never_modifies_store (s : DBState) (auth : Option String)
    (now_s : Nat) :
    (AuthenticationManager.get_user s auth now_s).1 = s := by
  unfold AuthenticationManager.get_user
  cases auth with
  | none => rfl
  | some t =>
      dsimp only
      cases hf : s.sessions.find? (fun r => r.token == t) with
      | none => rfl
      | some session => by_cases h : session.expiry < now_s <;> simp [h]

/-- C10: when no users row matches `uid`, `change_password` raises
`TypeError` from destructuring the empty query result (not the
password-validation error) and leaves both tables unchanged. -/
theorem changePassword_unknown_uid_typeError (m : AuthenticationManager)
    (s : DBState) (uid old_password new_password newSalt : String)
    (h : s.users.find? (fun u => u.id == uid) = none) :
    m.change_password s uid old_password new_password newSalt =
      (s, .error .typeError) := by
  unfold AuthenticationManager.change_password
  rw [h]

/-- Witness for C10 at a concrete store holding only `alice`. -/
theorem changePassword_unknown_uid_typeError_witness :
    mgr0.change_password ⟨[alice], [sessAtBoundary]⟩ "nope" "a" "b" "saltN" =
      (⟨[alice], [sessAtBoundary]⟩, .error .typeError) :=
  changePassword_unknown_uid_typeError mgr0 ⟨[alice], [sessAtBoundary]⟩
    "nope" "a" "b" "saltN" (by rfl)

/-- C3: `register` raises `UserAlreadyExists` exactly when a users row
with the same (case-sensitive) username exists, inserting nothing in that
case; otherwise it appends exactly one row carrying the fresh id, the
computed hash, the generated salt and the supplied groups, leaving every
existing row (in particular a previously registered user's) unchanged. -/
theorem register_spec (m : AuthenticationManager) (s : DBState)
    (username password : String) (groups : List String) (salt uid : String) :
    ((m.register s username password groups salt uid).2 =
        .error .userAlreadyExists ↔ ∃ u ∈ s.users, u.username = username) ∧
    ((∃ u ∈ s.users, u.username = username) →
        (m.register s username password groups salt uid).1 = s) ∧
    ((∀ u ∈ s.users, u.username ≠ username) →
        m.register s username password groups salt uid =
          ({ s with users := s.users ++
              [⟨uid, username, m.hashFn password salt, salt, groups⟩] },
           .ok ())) := by
  unfold AuthenticationManager.register
  cases hfind : s.users.find? (fun u => u.username == username) with
  | none =>
      dsimp only
      have hall : ∀ u ∈ s.users, u.username ≠ username := by
        intro u hu
        have := List.find?_eq_none.mp hfind u hu
        simpa using this
      refine ⟨⟨fun h => by simp at h, ?_⟩, ?_, fun _ => rfl⟩
      · rintro ⟨u, hu, hname⟩
        exact absurd hname (hall u hu)
      · rintro ⟨u, hu, hname⟩
        exact absurd hname (hall u hu)
  | some w =>
      dsimp only
      have hw : w ∈ s.users := List.mem_of_find?_eq_some hfind
      have hwname : w.username = username := by
        have := List.find?_some hfind
        simpa using this
      refine ⟨⟨fun _ => ⟨w, hw, hwname⟩, fun _ => rfl⟩, fun _ => rfl, ?_⟩
      intro hall
      exact absurd hwname (hall w hw)

/-- Witness for C3: registering `alice`'s username again fails with
`UserAlreadyExists` and leaves the store unchanged. -/
theorem register_spec_witness :
    (mgr0.register ⟨[alice], []⟩ "alice" "pw2" [] "saltZ" "uid-9").2 =
        .error .userAlreadyExists ∧
      (mgr0.register ⟨[alice], []⟩ "alice" "pw2" [] "saltZ" "uid-9").1 =
        ⟨[alice], []⟩ := by
  have h := register_spec mgr0 ⟨[alice], []⟩ "alice" "pw2" [] "saltZ" "uid-9"
  have hdup : ∃ u ∈ (⟨[alice], []⟩ : DBState).users, u.username = "alice" :=
    ⟨alice, by simp, rfl⟩
  exact ⟨h.1.mpr hdup, h.2.1 hdup⟩

/-- C4: `login` raises `AuthenticationFailure` exactly when no users row
matches the username or the hash recomputed from the given password and
the stored salt differs from the stored hash; in either failure case the
whole store — in particular the sessions table — is returned unchanged. -/
theorem login_failure_iff (m : AuthenticationManager) (s : DBState)
    (username password : String) (response : Response) (token : String)
    (now_us : Nat) :
    ((m.login s username password response token now_us).2 =
        .error .authenticationFailure ↔
      s.users.find? (fun u => u.username == username) = none ∨
        ∃ user, s.users.find? (fun u => u.username == username) = some user ∧
          m.hashFn password user.salt ≠ user.hash) ∧
    ((m.login s username password response token now_us).2 =
        .error .authenticationFailure →
      (m.login s username password response token now_us).1 = s) := by
  unfold AuthenticationManager.login
  cases hfind : s.users.find? (fun u => u.username == username) with
  | none =>
      dsimp only
      exact ⟨⟨fun _ => Or.inl rfl, fun _ => rfl⟩, fun _ => rfl⟩
  | some user =>
      dsimp only
      by_cases hh : m.hashFn password user.salt ≠ user.hash
      · rw [if_pos hh]
        exact ⟨⟨fun _ => Or.inr ⟨user, rfl, hh⟩, fun _ => rfl⟩, fun _ => rfl⟩
      · rw [if_neg hh]
        push_neg at hh
        have hrhs : ¬((some user : Option UserRow) = none ∨
            ∃ u, (some user : Option UserRow) = some u ∧
              m.hashFn password u.salt ≠ u.hash) := by
          rintro (h | ⟨u, hu, hne⟩)
          · exact Option.noConfusion h
          · injection hu with hu2
            subst hu2
            exact hne hh
        cases hc : m.config with
        | none =>
            dsimp only
            refine ⟨⟨?_, fun hr => absurd hr hrhs⟩, ?_⟩ <;>
              · intro habs
                simp [AuthenticationManager.create_session,
                  AuthenticationManager.create_session_token] at habs
        | some cfg =>
            dsimp only
            by_cases hemp : cfg.isEmpty
            · rw [if_pos hemp]
              refine ⟨⟨?_, fun hr => absurd hr hrhs⟩, ?_⟩ <;>
                · intro habs
                  simp [AuthenticationManager.create_session,
                    AuthenticationManager.create_session_token] at habs
            · rw [if_neg hemp]
              cases hdg : dictGet cfg "expiry" with
              | none =>
                  dsimp only
                  refine ⟨⟨?_, fun hr => absurd hr hrhs⟩, ?_⟩ <;>
                    · intro habs
                      simp at habs
              | some d =>
                  dsimp only
                  refine ⟨⟨?_, fun hr => absurd hr hrhs⟩, ?_⟩ <;>
                    · intro habs
                      simp [AuthenticationManager.create_session,
                        AuthenticationManager.create_session_token] at habs

/-- Witness for C4: a wrong password for `alice` fails authentication and
leaves the store — sessions included — unchanged. -/
theorem login_failure_iff_witness :
    (mgr0.login ⟨[alice], [sessAtBoundary]⟩ "alice" "wrong" ⟨[]⟩ "t" 0).2 =
        .error .authenticationFailure ∧
      (mgr0.login ⟨[alice], [sessAtBoundary]⟩ "alice" "wrong" ⟨[]⟩ "t" 0).1 =
        ⟨[alice], [sessAtBoundary]⟩ := by
  have h := login_failure_iff mgr0 ⟨[alice], [sessAtBoundary]⟩ "alice" "wrong"
    ⟨[]⟩ "t" 0
  have hfail : (mgr0.login ⟨[alice], [sessAtBoundary]⟩ "alice" "wrong" ⟨[]⟩
      "t" 0).2 = .error .authenticationFailure :=
    h.1.mpr (Or.inr ⟨alice, by rfl, by decide⟩)
  exact ⟨hfail, h.2 hfail⟩

/-- `find?` commutes with a map that does not change the predicate. -/
theorem find?_map_of_pred_comm {α : Type} (p : α → Bool) (f : α → α)
    (l : List α) (hpf : ∀ x, p (f x) = p x) :
    (l.map f).find? p = (l.find? p).map f := by
  induction l with
  | nil => rfl
  | cons x xs ih =>
      by_cases hx : p x
      · rw [List.map_cons, List.find?_cons_of_pos _ ((hpf x).trans (by rw [hx])),
          List.find?_cons_of_pos _ hx, Option.map_some']
      · rw [List.map_cons,
          List.find?_cons_of_neg _ (by rw [hpf x]; exact hx),
          List.find?_cons_of_neg _ hx]
        exact ih

/-- C7: with a users row matching `uid`, `change_password` fails with the
password-validation error and leaves both tables unchanged when the old
password's recomputed hash differs from the stored one; otherwise it
rewrites the row with the freshly drawn salt and the new password's hash
over it, deletes every session row of that uid, and any token whose
session rows all belonged to that uid no longer resolves via `get_user`. -/
theorem change_password_spec (m : AuthenticationManager) (s : DBState)
    (uid old_password new_password newSalt : String) (user : UserRow)
    (hfind : s.users.find? (fun u => u.id == uid) = some user) :
    (m.hashFn old_password user.salt ≠ user.hash →
      m.change_password s uid old_password new_password newSalt =
        (s, .error .passwordValidationError)) ∧
    (m.hashFn old_password user.salt = user.hash → newSalt ≠ user.salt →
      (m.change_password s uid old_password new_password newSalt).2 =
          .ok () ∧
      (m.change_password s uid old_password new_password newSalt).1 =
          { users := s.users.map (fun u =>
              if u.id = uid then
                { u with hash := m.hashFn new_password newSalt,
                         salt := newSalt }
              else u),
            sessions := s.sessions.filter (fun r => r.id ≠ uid) } ∧
      (m.change_password s uid old_password new_password newSalt).1.users.find?
          (fun u => u.id == uid) =
        some { user with hash := m.hashFn new_password newSalt,
                         salt := newSalt } ∧
      ∀ t now_s, (∀ r ∈ s.sessions, r.token = t → r.id = uid) →
        (AuthenticationManager.get_user
            (m.change_password s uid old_password new_password newSalt).1
            (some t) now_s).2 = none) := by
  have huid : user.id = uid := by
    have := List.find?_some hfind
    simpa using this
  unfold AuthenticationManager.change_password
  rw [hfind]
  dsimp only
  constructor
  · intro hne
    rw [if_pos hne]
  · intro hh hsalt
    rw [if_neg (not_not_intro hh)]
    refine ⟨rfl, rfl, ?_, ?_⟩
    · have hpf : ∀ u : UserRow,
          (fun v : UserRow => v.id == uid)
              ((fun v : UserRow =>
                if v.id = uid then
                  { v with hash := m.hashFn new_password newSalt,
                           salt := newSalt }
                else v) u) =
            (fun v : UserRow => v.id == uid) u := by
        intro u
        by_cases hu : u.id = uid
        · simp [hu]
        · simp [hu]
      rw [find?_map_of_pred_comm (fun v : UserRow => v.id == uid)
            (fun v : UserRow =>
              if v.id = uid then
                { v with hash := m.hashFn new_password newSalt,
                         salt := newSalt }
              else v) s.users hpf, hfind, Option.map_some']
      rw [if_pos huid]
    · intro t now_s htok
      unfold AuthenticationManager.get_user
      dsimp only
      have hnone : (s.sessions.filter (fun r => r.id ≠ uid)).find?
          (fun r => r.token == t) = none := by
        rw [List.find?_eq_none]
        intro r hr habs
        rw [List.mem_filter] at hr
        exact (by simpa using hr.2 : ¬ r.id = uid)
          (htok r hr.1 (by simpa using habs))
      rw [hnone]

/-- Witness for C7: changing `alice`'s password with the correct old
password succeeds, rewrites her row with the new salt and hash, and her
pre-change session token no longer resolves. -/
theorem change_password_spec_witness :
    (mgr0.change_password ⟨[alice], [sessAtBoundary]⟩ "uid-1" "pw1" "pw2"
        "saltB").2 = .ok () ∧
    (mgr0.change_password ⟨[alice], [sessAtBoundary]⟩ "uid-1" "pw1" "pw2"
        "saltB").1.users.find? (fun u => u.id == "uid-1") =
      some { alice with hash := mgr0.hashFn "pw2" "saltB",
                        salt := "saltB" } ∧
    (AuthenticationManager.get_user
        (mgr0.change_password ⟨[alice], [sessAtBoundary]⟩ "uid-1" "pw1" "pw2"
          "saltB").1
        (some "tokB") 0).2 = none := by
  have h := (change_password_spec mgr0 ⟨[alice], [sessAtBoundary]⟩ "uid-1"
    "pw1" "pw2" "saltB" alice (by rfl)).2 (by rfl) (by decide)
  refine ⟨h.1, h.2.2.1, h.2.2.2 "tokB" 0 ?_⟩
  intro r hr _
  have hr' : r = sessAtBoundary := by simpa using hr
  subst hr'
  rfl

/-- A manager constructed with a configuration mapping carrying an
`expiry` entry of 5 seconds. -/
def mgrCfg : AuthenticationManager := ⟨hashCat, some [("expiry", 5000000)]⟩

/-- C9: a login that passes its credential checks stores a session whose
expiry is the call time plus the configured `expiry` duration when a
configuration mapping with that key was supplied at construction, and
plus the 30-day default when no configuration was supplied — in both
cases truncated to whole Unix seconds by the microsecond floor-division. -/
theorem login_expiry_configuration (m : AuthenticationManager) (s : DBState)
    (username password : String) (response : Response) (token : String)
    (now_us : Nat) (user : UserRow)
    (hfind : s.users.find? (fun u => u.username == username) = some user)
    (hhash : m.hashFn password user.salt = user.hash) :
    (m.config = none →
      (m.login s username password response token now_us).1.sessions =
        s.sessions.filter (fun r => r.id ≠ user.id) ++
          [⟨user.id, token, (now_us + defaultExpiry_us) / 1000000⟩]) ∧
    (∀ cfg d, m.config = some cfg → dictGet cfg "expiry" = some d →
      (m.login s username password response token now_us).1.sessions =
        s.sessions.filter (fun r => r.id ≠ user.id) ++
          [⟨user.id, token, (now_us + d) / 1000000⟩]) := by
  constructor
  · intro hc
    rw [login_success_state m s username password response token now_us
      defaultExpiry_us user hfind hhash
      (by unfold AuthenticationManager.effectiveExpiry; rw [hc])]
  · intro cfg d hc hdg
    have hemp : cfg.isEmpty = false := by
      cases cfg with
      | nil => simp [dictGet] at hdg
      | cons x xs => rfl
    rw [login_success_state m s username password response token now_us
      d user hfind hhash
      (by unfold AuthenticationManager.effectiveExpiry
          rw [hc]
          simp [hemp, hdg])]

/-- Witness for C9: with a 5-second configured expiry and a call at
2.5e6 microseconds, the stored session expiry is `(2500000 + 5000000) /
1000000 = 7` whole seconds. -/
theorem login_expiry_configuration_witness :
    (mgrCfg.login ⟨[alice], []⟩ "alice" "pw1" ⟨[]⟩ "tokC" 2500000).1.sessions =
      [⟨"uid-1", "tokC", 7⟩] := by
  have h := (login_expiry_configuration mgrCfg ⟨[alice], []⟩ "alice" "pw1"
    ⟨[]⟩ "tokC" 2500000 alice (by rfl) (by rfl)).2
    [("expiry", 5000000)] 5000000 rfl (by rfl)
  simpa using h

/-- C6: after two sequential logins for the same user that pass their
credential checks (each call still raises `NameError` at the cookie step,
see C1, with the session rows already written), the first call's token
matches no session row — presenting it makes `get_user` return the absent
result — while the second call's token resolves to the user.  The
freshness of the two `uuid4` draws is the hypotheses that the tokens are
distinct and absent from the pre-existing sessions table. -/
theorem second_login_invalidates_first (m : AuthenticationManager)
    (s : DBState) (username password : String) (resp1 resp2 : Response)
    (tok1 tok2 : String) (now1 now2 nowq d : Nat) (user : UserRow)
    (hd : m.effectiveExpiry = some d)
    (hfind : s.users.find? (fun u => u.username == username) = some user)
    (hhash : m.hashFn password user.salt = user.hash)
    (hfindid : s.users.find? (fun u => u.id == user.id) = some user)
    (htok1 : ∀ r ∈ s.sessions, r.token ≠ tok1)
    (htok2 : ∀ r ∈ s.sessions, r.token ≠ tok2)
    (hne : tok1 ≠ tok2)
    (hq : ¬ (now2 + d) / 1000000 < nowq) :
    (AuthenticationManager.get_user
        (m.login (m.login s username password resp1 tok1 now1).1
          username password resp2 tok2 now2).1
        (some tok1) nowq).2 = none ∧
    (AuthenticationManager.get_user
        (m.login (m.login s username password resp1 tok1 now1).1
          username password resp2 tok2 now2).1
        (some tok2) nowq).2 = some user := by
  rw [login_success_state m s username password resp1 tok1 now1 d user
    hfind hhash hd]
  dsimp only
  have h2 := login_success_state m
    { users := s.users,
      sessions := s.sessions.filter (fun r => r.id ≠ user.id) ++
        [{ id := user.id, token := tok1,
           expiry := (now1 + d) / 1000000 : SessionRow }] }
    username password resp2 tok2 now2 d user hfind hhash hd
  rw [h2]
  have hfilter : ((s.sessions.filter (fun r => r.id ≠ user.id) ++
      [⟨user.id, tok1, (now1 + d) / 1000000⟩] : List SessionRow)).filter
        (fun r => r.id ≠ user.id) =
      s.sessions.filter (fun r => r.id ≠ user.id) := by
    rw [List.filter_append]
    have h3 : (([⟨user.id, tok1, (now1 + d) / 1000000⟩]) :
        List SessionRow).filter (fun r => r.id ≠ user.id) = [] := by
      simp
    have h4 : ((s.sessions.filter (fun r => r.id ≠ user.id))).filter
        (fun r => r.id ≠ user.id) =
        s.sessions.filter (fun r => r.id ≠ user.id) :=
      List.filter_eq_self.mpr (fun a ha => (List.mem_filter.mp ha).2)
    rw [h3, h4, List.append_nil]
  dsimp only
  rw [hfilter]
  constructor
  · unfold AuthenticationManager.get_user
    dsimp only
    have hn : ((s.sessions.filter (fun r => r.id ≠ user.id) ++
        [⟨user.id, tok2, (now2 + d) / 1000000⟩] : List SessionRow)).find?
          (fun r => r.token == tok1) = none := by
      rw [List.find?_eq_none]
      intro r hr
      rcases List.mem_append.mp hr with hF | hS
      · have := htok1 r (List.mem_filter.mp hF).1
        simpa using this
      · have hr2 : r = ⟨user.id, tok2, (now2 + d) / 1000000⟩ := by
          simpa using hS
        subst hr2
        simpa using (Ne.symm hne)
    rw [hn]
  · unfold AuthenticationManager.get_user
    dsimp only
    have hF : (s.sessions.filter (fun r => r.id ≠ user.id)).find?
        (fun r => r.token == tok2) = none := by
      rw [List.find?_eq_none]
      intro r hr
      have := htok2 r (List.mem_filter.mp hr).1
      simpa using this
    rw [find?_append_of_none _ _ hF]
    have hsing : List.find? (fun r : SessionRow => r.token == tok2)
        [{ id := user.id, token := tok2, expiry := (now2 + d) / 1000000 }] =
        some { id := user.id, token := tok2,
               expiry := (now2 + d) / 1000000 } :=
      List.find?_cons_of_pos [] (by simp)
    rw [hsing]
    dsimp only
    rw [if_neg hq]
    exact hfindid

/-- Witness for C6: two logins for `alice` with distinct fresh tokens
`t1`, `t2` — afterwards `t1` no longer resolves and `t2` resolves to
`alice`. -/
theorem second_login_invalidates_first_witness :
    (AuthenticationManager.get_user
        (mgr0.login (mgr0.login ⟨[alice], []⟩ "alice" "pw1" ⟨[]⟩ "t1" 0).1
          "alice" "pw1" ⟨[]⟩ "t2" 0).1
        (some "t1") 0).2 = none ∧
    (AuthenticationManager.get_user
        (mgr0.login (mgr0.login ⟨[alice], []⟩ "alice" "pw1" ⟨[]⟩ "t1" 0).1
          "alice" "pw1" ⟨[]⟩ "t2" 0).1
        (some "t2") 0).2 = some alice :=
  second_login_invalidates_first mgr0 ⟨[alice], []⟩ "alice" "pw1" ⟨[]⟩ ⟨[]⟩
    "t1" "t2" 0 0 0 defaultExpiry_us alice rfl (by rfl) rfl (by rfl)
    (fun r hr => absurd hr (List.not_mem_nil r))
    (fun r hr => absurd hr (List.not_mem_nil r))
    (by decide) (Nat.not_lt_zero _)
